import Mathlib

/-
  Verification development for a small interactive pipe-capable shell
  (single C translation unit, src/shell.c).

  The shell reads a line, tokenizes it into pipe-separated stages
  (makeProcesses / makeProcess / makeArgument / endOfArg), and executes the
  stages concurrently (execute / runChild / waitOnProcesses / makePipes /
  closeUnneededPipes).

  Embedding conventions:
  * A character buffer is a total function from index to the signed-char
    value stored there, as an Int (so the EOF sentinel -1 of the C code is
    representable).  Concrete test inputs place the bytes of the line at
    indices 0, 1, ... and 0 (NUL) afterwards, matching what fgets leaves in
    the buffer for a short line.
  * Each C while-loop becomes a structurally recursive function on an
    explicit fuel argument; fuel exhaustion returns none, so a too-small
    fuel is observable rather than silently changing semantics.  Entry
    points pass fuel BUFFER_SIZE + 2, which is larger than the number of
    iterations any of the loops can perform (each iteration advances the
    scan index, which the loop guards bound by BUFFER_SIZE).
  * Fallible OS primitives (pipe, fork, dup2, close, waitpid, execvp) are
    modelled by boolean outcome oracles collected in ExecEnv; the functions
    of the executor are translated into that error model.
-/

/-! ## Constants of the source (src/shell.c lines 33-37) -/

def BUFFER_SIZE : Nat := 2048

def MAX_PROCESSES : Nat := 1000

def MAX_WORDS : Nat := 500

def MAX_WORD_LENGTH : Nat := 100

/-! ## Tokenizer (src/shell.c lines 283-385)

An argument is the list of character values read for one word, a stage is
the argument list of one process (`char **` in the source), a pipeline is
the list of stages (`struct Processes`). -/

abbrev Arg := List Int

abbrev Stage := List Arg

abbrev Pipeline := List Stage

/-- `endOfArg` (src/shell.c lines 381-385): the scan index is at the end of
the current argument when it has left the buffer, or the character there is
a newline, the EOF sentinel (-1, i.e. byte 0xFF read through a signed
char), or the pipe symbol. -/
def endOfArg (input : Nat → Int) (ind : Nat) : Bool :=
  decide (BUFFER_SIZE ≤ ind) || decide (input ind = 10) ||
    decide (input ind = -1) || decide (input ind = 124)

/-- Negation of the loop guard of `makeArgument` (src/shell.c line 362):
the copying loop runs while `!endOfArg(input, ind) && input[*ind] != ' '`,
so it stops exactly at `endOfArg` positions and at the space character. -/
def argBoundary (input : Nat → Int) (ind : Nat) : Bool :=
  endOfArg input ind || decide (input ind = 32)

/-- `makeArgument` (src/shell.c lines 354-369): copy characters into a
fresh argument until the boundary, returning the argument and the new scan
index.  The fuel counts loop iterations; none means the fuel ran out (the
C loop always terminates because the index grows and `endOfArg` stops it
at BUFFER_SIZE). -/
def makeArgumentF : Nat → (Nat → Int) → Nat → Option (Arg × Nat)
  | 0, _, _ => none
  | fuel + 1, input, ind =>
    if argBoundary input ind then some ([], ind)
    else
      match makeArgumentF fuel input (ind + 1) with
      | none => none
      | some (arg, ind2) => some (input ind :: arg, ind2)

/-- The leading-space skip of `makeProcess` (src/shell.c lines 324-326):
advance while `!endOfArg(input, ind) && input[*ind] == ' '`. -/
def skipSpacesF : Nat → (Nat → Int) → Nat → Option Nat
  | 0, _, _ => none
  | fuel + 1, input, ind =>
    if !endOfArg input ind && decide (input ind = 32) then
      skipSpacesF fuel input (ind + 1)
    else some ind

/-- The word-reading loop of `makeProcess` (src/shell.c lines 321-333):
while the stage boundary is not reached, skip leading spaces and, if still
not at the boundary, read one argument and append it. -/
def makeProcessLoopF : Nat → (Nat → Int) → Nat → Stage → Option (Stage × Nat)
  | 0, _, _, _ => none
  | fuel + 1, input, ind, acc =>
    if endOfArg input ind then some (acc, ind)
    else
      match skipSpacesF (BUFFER_SIZE + 2) input ind with
      | none => none
      | some ind2 =>
        if endOfArg input ind2 then
          -- the inner if of the loop body is skipped and the loop
          -- condition, re-checked, fails
          some (acc, ind2)
        else
          match makeArgumentF (BUFFER_SIZE + 2) input ind2 with
          | none => none
          | some (arg, ind3) => makeProcessLoopF fuel input ind3 (acc ++ [arg])

/-- `makeProcess` (src/shell.c lines 313-342): read the words of one stage,
then consume a pipe symbol if the scan stopped on one
(`if (*ind < BUFFER_SIZE && input[*ind] == '|') ++(*ind)`). -/
def makeProcessF (input : Nat → Int) (ind : Nat) : Option (Stage × Nat) :=
  match makeProcessLoopF (BUFFER_SIZE + 2) input ind [] with
  | none => none
  | some (args, ind2) =>
    if ind2 < BUFFER_SIZE ∧ input ind2 = 124 then some (args, ind2 + 1)
    else some (args, ind2)

/-- The stage-collection loop of `makeProcesses` (src/shell.c lines
290-297): keep the stages returned by `makeProcess` while their first
argument exists (`while (currArgs[0] != NULL)`); the first stage with zero
arguments stops the loop and is discarded. -/
def makeProcessesLoopF : Nat → (Nat → Int) → Nat → Pipeline → Option Pipeline
  | 0, _, _, _ => none
  | fuel + 1, input, ind, acc =>
    match makeProcessF input ind with
    | none => none
    | some (args, ind2) =>
      if args.isEmpty then some acc
      else makeProcessesLoopF fuel input ind2 (acc ++ [args])

/-- `makeProcesses` (src/shell.c lines 283-302): tokenize a whole input
buffer, starting at index 0, into the pipeline handed to the executor. -/
def makeProcesses (input : Nat → Int) : Option Pipeline :=
  makeProcessesLoopF (BUFFER_SIZE + 2) input 0 []

/-! ### Concrete input buffers -/

/-- Buffer holding a line given as a list of byte values followed by NUL
padding, as fgets leaves it for a short line. -/
def bufOfList (l : List Int) : Nat → Int := fun i => l.getD i 0

/-- The line consisting of the characters a, pipe, pipe, b, newline. -/
def inputDoublePipe : Nat → Int := bufOfList [97, 124, 124, 98, 10]

/-- The line consisting of the characters pipe, a, newline. -/
def inputLeadingPipe : Nat → Int := bufOfList [124, 97, 10]

/-- The line consisting of the characters a, pipe, newline. -/
def inputTrailingPipe : Nat → Int := bufOfList [97, 124, 98, 124, 10]

/-- The line consisting of the characters a, tab, b, newline. -/
def inputTab : Nat → Int := bufOfList [97, 9, 98, 10]

/-- The line consisting of the characters a, pipe, b, newline. -/
def inputSimplePipe : Nat → Int := bufOfList [97, 124, 98, 10]

/-- A line holding one 150-character word followed by a newline: its single
argument exceeds the MAX_WORD_LENGTH = 100 byte allocation of
`makeArgument`. -/
def inputLongWord : Nat → Int := fun i =>
  if i < 150 then 97 else if i = 150 then 10 else 0

/-- A line holding 501 one-character words separated by single spaces,
followed by a newline: one stage with more arguments than the
MAX_WORDS = 500 slot array of `makeProcess` can hold. -/
def inputManyWords : Nat → Int := fun i =>
  if i < 1001 then (if i % 2 = 0 then 97 else 32) else if i = 1001 then 10 else 0

/-! ## Pipeline executor (src/shell.c lines 104-267)

The OS primitives are consumed through outcome oracles: for every call the
oracle says whether that call fails.  Wait statuses of programs that were
successfully exec'ed come from the oracle `extStatus`. -/

/-- The diagnostics the shell prints, one constructor per fprintf in the
executor and the read check of main. -/
inductive Diag where
  | pipeErr       -- "Pipe Error" (makePipes)
  | forkErr       -- "Fork Error" (execute)
  | dupErr        -- "IO Duplication Error" (runChild)
  | closeErr      -- "Error closing file descriptor" (closeUnneededPipes, waitOnProcesses)
  | waitErr       -- "Error waiting for child process to run" (waitOnProcesses)
  | stdinReadErr  -- "Error occured reading from stdin" (main)
  | cmdNotFound (prog : Arg)  -- "jsh error: Command not found: %s" (runChild)
deriving DecidableEq

/-- Outcomes of the OS calls made while executing one pipeline.  A `true`
oracle value means that call fails. -/
structure ExecEnv where
  pipeFails : Nat → Bool                    -- pipe() for channel i
  forkFails : Nat → Bool                    -- fork() for stage i
  childCloseFails : Nat → Nat → Bool → Bool -- close() in child ind of channel i's end (true = write end)
  dupFails : Nat → Bool → Bool              -- dup2() in child ind (true = the stdout redirection)
  execOk : Nat → Bool                       -- execvp() for stage ind resolves and runs
  parentCloseFails : Nat → Bool → Bool      -- close() in the parent of channel i's end
  waitFails : Nat → Bool                    -- waitpid() for stage i
  extStatus : Nat → Nat                     -- wait status of stage i if its exec succeeded

/-- What becomes of one forked child. -/
inductive ChildOutcome where
  | exited (code : Nat) (d : Diag)
  | execed (prog : Arg) (args : Stage) (stdinFrom : Option Nat) (stdoutTo : Option Nat)
deriving DecidableEq

/-- Result of `execute` for the whole shell process. -/
inductive ExecResult where
  | shellAbort (d : Diag) (code : Nat)  -- exit() reached in the parent
  | reported (status : Nat)             -- "jsh status: %d" printed, prompt loop continues
deriving DecidableEq

/-- `currProcesses->args[ind]` (the stage of index ind). -/
def stageOf (prcs : Pipeline) (ind : Nat) : Stage := prcs.getD ind []

/-- `currProcesses->args[ind][0]` (the program name of stage ind). -/
def progOf (prcs : Pipeline) (ind : Nat) : Arg := (stageOf prcs ind).headD []

/-- `closeUnneededPipes` (src/shell.c lines 255-267) run inside child
`ind` of an N-stage pipeline: for i from 0 to size-2, close the read end
of channel i unless i = ind-1 and the write end unless i = ind (the
comparisons are on C ints, hence the Int casts); the first failing close
makes the child print the diagnostic and exit(127), modelled as an
error. -/
def closeUnneededPipesM (env : ExecEnv) (ind : Nat) : List Nat → Except Diag Unit
  | [] => .ok ()
  | i :: rest =>
    if (i : Int) ≠ (ind : Int) - 1 ∧ env.childCloseFails ind i false then .error .closeErr
    else if (i : Int) ≠ (ind : Int) ∧ env.childCloseFails ind i true then .error .closeErr
    else closeUnneededPipesM env ind rest

/-- `runChild` (src/shell.c lines 141-167) together with the child branch
of `execute` (lines 114-117): close the unneeded channel ends, redirect
stdin from channel ind-1 when ind is not 0, redirect stdout to channel ind
when ind is not size-1, then exec the stage's program.  Every failure path
ends with exit(127) in the child: close and dup2 failures directly, an
execvp failure after `runChild` returns -1 and `execute` calls
exit(127). -/
def runChildM (env : ExecEnv) (prcs : Pipeline) (ind : Nat) : ChildOutcome :=
  match closeUnneededPipesM env ind (List.range (prcs.length - 1)) with
  | .error d => .exited 127 d
  | .ok _ =>
    if ind ≠ 0 ∧ env.dupFails ind false then .exited 127 .dupErr
    else if (ind : Int) ≠ (prcs.length : Int) - 1 ∧ env.dupFails ind true then
      .exited 127 .dupErr
    else if env.execOk ind then
      .execed (progOf prcs ind) (stageOf prcs ind)
        (if ind ≠ 0 then some (ind - 1) else none)
        (if (ind : Int) ≠ (prcs.length : Int) - 1 then some ind else none)
    else .exited 127 (.cmdNotFound (progOf prcs ind))

/-- Allocation loop of `makePipes` (src/shell.c lines 233-241): one pipe()
call per index; a failing call prints "Pipe Error" and exits the whole
shell. -/
def makePipesLoopM (env : ExecEnv) : List Nat → Except Diag Unit
  | [] => .ok ()
  | i :: rest =>
    if env.pipeFails i then .error .pipeErr else makePipesLoopM env rest

/-- `makePipes` (src/shell.c lines 226-243) as called by `execute` line
107 with `currProcesses->size`: on success the created channels are
0 .. size-1. -/
def makePipesM (env : ExecEnv) (size : Nat) : Except Diag (List Nat) :=
  match makePipesLoopM env (List.range size) with
  | .error d => .error d
  | .ok _ => .ok (List.range size)

/-- The fork loop of `execute` (src/shell.c lines 112-122), parent's view:
a failing fork prints "Fork Error" and exits the whole shell. -/
def forkLoopM (env : ExecEnv) : List Nat → Except Diag Unit
  | [] => .ok ()
  | i :: rest =>
    if env.forkFails i then .error .forkErr else forkLoopM env rest

/-- The wait status the parent's waitpid reads for stage i: children that
called exit(c) yield the POSIX encoding (c mod 256) * 256 (the low byte of
c shifted into bits 8-15); a stage whose exec succeeded yields the status
of the external program, taken from the oracle. -/
def waitStatusOf (env : ExecEnv) (prcs : Pipeline) (i : Nat) : Nat :=
  match runChildM env prcs i with
  | .exited c _ => (c % 256) * 256
  | .execed _ _ _ _ => env.extStatus i

/-- The glibc macro WEXITSTATUS, `(status & 0xff00) >> 8`: bits 8-15 of
the wait status. -/
def WEXITSTATUS (s : Nat) : Nat := s / 256 % 256

/-- The loop of `waitOnProcesses` (src/shell.c lines 183-195): for each i,
close both ends of channel i (short-circuit: the write end is attempted
only if the read end closed), abort the shell on a close or waitpid
failure, and overwrite the single status variable with stage i's wait
status. -/
def waitLoopM (env : ExecEnv) (prcs : Pipeline) : List Nat → Nat → Except Diag Nat
  | [], status => .ok status
  | i :: rest, _status =>
    if env.parentCloseFails i false then .error .closeErr
    else if env.parentCloseFails i true then .error .closeErr
    else if env.waitFails i then .error .waitErr
    else waitLoopM env prcs rest (waitStatusOf env prcs i)

/-- `waitOnProcesses` (src/shell.c lines 179-197): after the loop, return
WEXITSTATUS of the last status written.  status0 models the uninitialized
local `status` (only read if size is 0). -/
def waitOnProcessesM (env : ExecEnv) (prcs : Pipeline) (status0 : Nat) :
    Except Diag Nat :=
  match waitLoopM env prcs (List.range prcs.length) status0 with
  | .error d => .error d
  | .ok s => .ok (WEXITSTATUS s)

/-- `execute` (src/shell.c lines 104-128), parent's view: allocate the
channels, fork the children, wait for all of them and report the final
status; any parent-side failure exits the whole shell with
EXIT_FAILURE = 1. -/
def executeM (env : ExecEnv) (prcs : Pipeline) (status0 : Nat) : ExecResult :=
  match makePipesM env prcs.length with
  | .error d => .shellAbort d 1
  | .ok _ =>
    match forkLoopM env (List.range prcs.length) with
    | .error d => .shellAbort d 1
    | .ok _ =>
      match waitOnProcessesM env prcs status0 with
      | .error d => .shellAbort d 1
      | .ok s => .reported s

/-! ## Channel ends open in a child (src/shell.c lines 141-167, 255-267)

For the descriptor-discipline claims the close loop is viewed through the
set of channel ends it closes.  An end is a pair of the channel index and
a flag that is true for the write end. -/

/-- All ends of the channels a child inherits: `execute` forks after
`makePipes(currProcesses->size)` and before any close, so every child
starts with both ends of all `size` channels. -/
def allEnds (size : Nat) : List (Nat × Bool) :=
  (List.range size).flatMap (fun i => [(i, false), (i, true)])

/-- The ends `closeUnneededPipes(pipes, size, ind)` closes (success case
of src/shell.c lines 255-267): for i from 0 to size-2, the read end of
channel i unless i = ind-1, and the write end unless i = ind. -/
def closedEndsOfChild (size ind : Nat) : List (Nat × Bool) :=
  (List.range (size - 1)).flatMap (fun i =>
    (if (i : Int) ≠ (ind : Int) - 1 then [(i, false)] else []) ++
      (if (i : Int) ≠ (ind : Int) then [(i, true)] else []))

/-- The channel ends still open in child ind when execvp runs (the dup2
calls duplicate two of these ends onto the standard slots but neither
close any channel end nor open a new one). -/
def childOpenEnds (size ind : Nat) : List (Nat × Bool) :=
  (allEnds size).filter (fun e => decide (e ∉ closedEndsOfChild size ind))

/-- Modelled from the spec: the ends stage ind of an N-stage pipeline
needs, "only the read end of channel i-1 (if i > 0) and the write end of
channel i (if i < N-1)". -/
def specNeededEnds (size ind : Nat) : List (Nat × Bool) :=
  (if 0 < ind then [(ind - 1, false)] else []) ++
    (if ind < size - 1 then [(ind, true)] else [])

/-! ## The read check of main (src/shell.c lines 73-78) -/

/-- What main does when fgets returns NULL: print the read-error
diagnostic only when ferror is set, and in either case `return 1`. -/
def mainOnFgetsNull (ferror : Bool) : List Diag × Nat :=
  ((if ferror then [Diag.stdinReadErr] else []), 1)

/-- An all-successful oracle environment with every external status 0. -/
def okEnv : ExecEnv where
  pipeFails := fun _ => false
  forkFails := fun _ => false
  childCloseFails := fun _ _ _ => false
  dupFails := fun _ _ => false
  execOk := fun _ => true
  parentCloseFails := fun _ _ => false
  waitFails := fun _ => false
  extStatus := fun _ => 0

/-! ## Helper lemmas -/

/-- No parent-side OS failure occurs for an n-stage pipeline: all pipe,
fork, parent-close and waitpid calls succeed. -/
def NoParentFailures (env : ExecEnv) (n : Nat) : Prop :=
  (∀ i < n, env.pipeFails i = false) ∧ (∀ i < n, env.forkFails i = false) ∧
    (∀ i < n, env.parentCloseFails i false = false ∧
      env.parentCloseFails i true = false) ∧
    (∀ i < n, env.waitFails i = false)

instance (env : ExecEnv) (n : Nat) : Decidable (NoParentFailures env n) := by
  unfold NoParentFailures; infer_instance

theorem makePipesLoopM_ok (env : ExecEnv) (is : List Nat)
    (h : ∀ i ∈ is, env.pipeFails i = false) : makePipesLoopM env is = .ok () := by
  induction is with
  | nil => rfl
  | cons i rest ih =>
    simp only [makePipesLoopM, h i (List.mem_cons_self i rest), if_neg Bool.false_ne_true]
    exact ih fun j hj => h j (List.mem_cons_of_mem i hj)

theorem makePipesM_ok (env : ExecEnv) (n : Nat)
    (h : ∀ i < n, env.pipeFails i = false) :
    makePipesM env n = .ok (List.range n) := by
  unfold makePipesM
  rw [makePipesLoopM_ok env _ (fun i hi => h i (List.mem_range.mp hi))]

theorem makePipesLoopM_err (env : ExecEnv) (is : List Nat)
    (h : ∃ i ∈ is, env.pipeFails i = true) :
    makePipesLoopM env is = .error .pipeErr := by
  induction is with
  | nil => exact absurd h (by simp)
  | cons i rest ih =>
    by_cases hf : env.pipeFails i
    · simp [makePipesLoopM, hf]
    · obtain ⟨j, hj, hjf⟩ := h
      rcases List.mem_cons.mp hj with rfl | hj
      · exact absurd hjf (by simp [hf])
      · simp only [makePipesLoopM, hf, if_neg Bool.false_ne_true]
        exact ih ⟨j, hj, hjf⟩

theorem forkLoopM_ok (env : ExecEnv) (is : List Nat)
    (h : ∀ i ∈ is, env.forkFails i = false) : forkLoopM env is = .ok () := by
  induction is with
  | nil => rfl
  | cons i rest ih =>
    simp only [forkLoopM, h i (List.mem_cons_self i rest), if_neg Bool.false_ne_true]
    exact ih fun j hj => h j (List.mem_cons_of_mem i hj)

theorem forkLoopM_err (env : ExecEnv) (is : List Nat)
    (h : ∃ i ∈ is, env.forkFails i = true) :
    forkLoopM env is = .error .forkErr := by
  induction is with
  | nil => exact absurd h (by simp)
  | cons i rest ih =>
    by_cases hf : env.forkFails i
    · simp [forkLoopM, hf]
    · obtain ⟨j, hj, hjf⟩ := h
      rcases List.mem_cons.mp hj with rfl | hj
      · exact absurd hjf (by simp [hf])
      · simp only [forkLoopM, hf, if_neg Bool.false_ne_true]
        exact ih ⟨j, hj, hjf⟩

theorem closeUnneededPipesM_ok (env : ExecEnv) (ind : Nat) (is : List Nat)
    (h : ∀ i ∈ is, env.childCloseFails ind i false = false ∧
      env.childCloseFails ind i true = false) :
    closeUnneededPipesM env ind is = .ok () := by
  induction is with
  | nil => rfl
  | cons i rest ih =>
    have h1 := (h i (List.mem_cons_self i rest)).1
    have h2 := (h i (List.mem_cons_self i rest)).2
    simp only [closeUnneededPipesM, h1, h2, Bool.false_eq_true, and_false,
      if_false]
    exact ih fun j hj => h j (List.mem_cons_of_mem i hj)

theorem runChildM_execed (env : ExecEnv) (prcs : Pipeline) (ind : Nat)
    (hclose : ∀ i b, env.childCloseFails ind i b = false)
    (hdup : ∀ b, env.dupFails ind b = false)
    (hexec : env.execOk ind = true) :
    runChildM env prcs ind =
      .execed (progOf prcs ind) (stageOf prcs ind)
        (if ind ≠ 0 then some (ind - 1) else none)
        (if (ind : Int) ≠ (prcs.length : Int) - 1 then some ind else none) := by
  unfold runChildM
  rw [closeUnneededPipesM_ok env ind _ (fun i _ => ⟨hclose i false, hclose i true⟩)]
  simp [hdup, hexec]

theorem waitLoopM_ok (env : ExecEnv) (prcs : Pipeline) (is : List Nat)
    (st : Nat)
    (h : ∀ i ∈ is, (env.parentCloseFails i false = false ∧
      env.parentCloseFails i true = false) ∧ env.waitFails i = false) :
    waitLoopM env prcs is st =
      .ok (is.foldl (fun _ i => waitStatusOf env prcs i) st) := by
  induction is generalizing st with
  | nil => rfl
  | cons i rest ih =>
    have h1 := (h i (List.mem_cons_self i rest)).1.1
    have h2 := (h i (List.mem_cons_self i rest)).1.2
    have h3 := (h i (List.mem_cons_self i rest)).2
    simp only [waitLoopM, h1, h2, h3, Bool.false_eq_true, if_false,
      List.foldl_cons]
    exact ih _ fun j hj => h j (List.mem_cons_of_mem i hj)

theorem waitLoopM_err (env : ExecEnv) (prcs : Pipeline) (is : List Nat)
    (st : Nat)
    (h : ∃ i ∈ is, env.parentCloseFails i false = true ∨
      env.parentCloseFails i true = true ∨ env.waitFails i = true) :
    ∃ d, waitLoopM env prcs is st = .error d ∧
      (d = Diag.closeErr ∨ d = Diag.waitErr) := by
  induction is generalizing st with
  | nil => exact absurd h (by simp)
  | cons i rest ih =>
    by_cases hc0 : env.parentCloseFails i false
    · exact ⟨.closeErr, by simp [waitLoopM, hc0], Or.inl rfl⟩
    · by_cases hc1 : env.parentCloseFails i true
      · exact ⟨.closeErr, by simp [waitLoopM, hc0, hc1], Or.inl rfl⟩
      · by_cases hw : env.waitFails i
        · exact ⟨.waitErr, by simp [waitLoopM, hc0, hc1, hw], Or.inr rfl⟩
        · obtain ⟨j, hj, hjf⟩ := h
          rcases List.mem_cons.mp hj with rfl | hj
          · rcases hjf with hf | hf | hf
            · exact absurd hf hc0
            · exact absurd hf hc1
            · exact absurd hf hw
          · have := ih (waitStatusOf env prcs i) ⟨j, hj, hjf⟩
            simpa [waitLoopM, hc0, hc1, hw] using this

/-- Folding a state-ignoring update over `List.range n` yields the value at
the last index (the single status variable of `waitOnProcesses` keeps only
the last stage's wait status). -/
theorem foldl_range_const (g : Nat → Nat) (a n : Nat) (h : 1 ≤ n) :
    (List.range n).foldl (fun _ i => g i) a = g (n - 1) := by
  induction n generalizing a with
  | zero => omega
  | succ m ih =>
    rcases Nat.eq_or_lt_of_le h with h1 | h1
    · simp [← h1, List.range_succ]
    · rw [List.range_succ, List.foldl_append]
      simp

/-- With no parent-side failure, `execute` runs to its final printf and
reports WEXITSTATUS of the last stage's wait status. -/
theorem executeM_reported (env : ExecEnv) (prcs : Pipeline) (status0 : Nat)
    (hne : prcs ≠ []) (h : NoParentFailures env prcs.length) :
    executeM env prcs status0 =
      .reported (WEXITSTATUS (waitStatusOf env prcs (prcs.length - 1))) := by
  obtain ⟨hp, hf, hc, hw⟩ := h
  have hn : 1 ≤ prcs.length := List.length_pos.mpr hne
  unfold executeM
  rw [makePipesM_ok env _ hp]
  rw [forkLoopM_ok env _ (fun i hi => hf i (List.mem_range.mp hi))]
  unfold waitOnProcessesM
  rw [waitLoopM_ok env prcs _ status0
    (fun i hi => ⟨hc i (List.mem_range.mp hi), hw i (List.mem_range.mp hi)⟩)]
  rw [foldl_range_const _ _ _ hn]

theorem mem_ite_singleton {α : Type} (x y : α) (c : Prop) [Decidable c] :
    (x ∈ if c then [y] else []) ↔ c ∧ x = y := by
  split_ifs with h <;> simp [h]

theorem mem_allEnds (size i : Nat) (b : Bool) :
    (i, b) ∈ allEnds size ↔ i < size := by
  cases b <;> simp [allEnds, List.mem_flatMap, List.mem_range]

theorem mem_closedEndsOfChild (size ind i : Nat) (b : Bool) :
    (i, b) ∈ closedEndsOfChild size ind ↔
      i < size - 1 ∧
        (if b then (i : Int) ≠ (ind : Int) else (i : Int) ≠ (ind : Int) - 1) := by
  cases b <;>
    simp only [closedEndsOfChild, List.mem_flatMap, List.mem_range,
      List.mem_append, mem_ite_singleton, Prod.mk.injEq, if_true, if_false,
      and_true, and_false, Bool.false_eq_true, Bool.true_eq_false, or_false,
      false_or] <;>
    constructor
  all_goals
    first
      | (rintro ⟨a, ha, hne, rfl⟩; exact ⟨ha, hne⟩)
      | (rintro ⟨h1, h2⟩; exact ⟨i, h1, h2, rfl⟩)

theorem mem_childOpenEnds (size ind i : Nat) (b : Bool) :
    (i, b) ∈ childOpenEnds size ind ↔
      i < size ∧ (i, b) ∉ closedEndsOfChild size ind := by
  simp [childOpenEnds, List.mem_filter, mem_allEnds]

theorem mem_specNeededEnds (size ind i : Nat) (b : Bool) :
    (i, b) ∈ specNeededEnds size ind ↔
      (0 < ind ∧ i = ind - 1 ∧ b = false) ∨
        (ind < size - 1 ∧ i = ind ∧ b = true) := by
  cases b <;>
    simp [specNeededEnds, List.mem_append, mem_ite_singleton, Prod.mk.injEq,
      and_comm]

/-- Invariant of the stage-collection loop: stages already collected are
nonempty, and only nonempty stages are appended. -/
theorem makeProcessesLoopF_no_empty (fuel : Nat) (input : Nat → Int)
    (ind : Nat) (acc p : Pipeline) (hacc : ∀ s ∈ acc, s ≠ [])
    (h : makeProcessesLoopF fuel input ind acc = some p) :
    ∀ s ∈ p, s ≠ [] := by
  induction fuel generalizing ind acc with
  | zero => exact absurd h (by simp [makeProcessesLoopF])
  | succ f ih =>
    rw [makeProcessesLoopF] at h
    cases hm : makeProcessF input ind with
    | none => rw [hm] at h; exact absurd h (by simp)
    | some r =>
      rw [hm] at h
      obtain ⟨args, ind2⟩ := r
      by_cases he : args.isEmpty
      · simp only [he, if_true] at h
        cases h
        exact hacc
      · simp only [he, if_false, Bool.false_eq_true] at h
        refine ih ind2 (acc ++ [args]) (fun s hs => ?_) h
        rcases List.mem_append.mp hs with h1 | h1
        · exact hacc s h1
        · rw [List.mem_singleton.mp h1]
          exact fun hc => he (by simp [hc])

/-! ## Environments used by the concrete instantiations -/

/-- Every OS call succeeds except the pipe() calls. -/
def envPipeFail : ExecEnv := { okEnv with pipeFails := fun _ => true }

/-- Every OS call succeeds except the fork() calls. -/
def envForkFail : ExecEnv := { okEnv with forkFails := fun _ => true }

/-- Every OS call succeeds except the parent's waitpid() calls. -/
def envWaitFail : ExecEnv := { okEnv with waitFails := fun _ => true }

/-- Every OS call succeeds except the close() calls made inside child 0. -/
def envChildCloseFail : ExecEnv :=
  { okEnv with childCloseFails := fun ind _ _ => decide (ind = 0) }

/-- Every OS call succeeds but stage 1's execvp fails to resolve. -/
def envExecFail1 : ExecEnv := { okEnv with execOk := fun i => decide (i ≠ 1) }

/-- All calls succeed and the last stage's program exits with code 5. -/
def envLast5 : ExecEnv := { okEnv with extStatus := fun _ => 5 * 256 }

/-! ## The claims -/

/-- C1: for every nonempty pipeline the status `execute` reports is the
exit status of the last stage in pipeline order (index N-1): the wait loop
overwrites its single status variable once per stage, in pipeline order,
and waitpid targets pids[i] directly, so neither the finish order nor the
statuses of the other N-1 stages (here: completely arbitrary oracle values
at every index except N-1) influence the result. -/
theorem c1_reported_status_is_last_stage (env : ExecEnv) (prcs : Pipeline)
    (status0 c : Nat) (hne : prcs ≠ [])
    (hpar : NoParentFailures env prcs.length)
    (hclose : ∀ i b, env.childCloseFails (prcs.length - 1) i b = false)
    (hdup : ∀ b, env.dupFails (prcs.length - 1) b = false)
    (hexec : env.execOk (prcs.length - 1) = true)
    (hst : env.extStatus (prcs.length - 1) = c * 256) (hc : c < 256) :
    executeM env prcs status0 = .reported c := by
  have h1 : waitStatusOf env prcs (prcs.length - 1) = c * 256 := by
    unfold waitStatusOf
    rw [runChildM_execed env prcs _ hclose hdup hexec]
    exact hst
  rw [executeM_reported env prcs status0 hne hpar, h1]
  have h2 : WEXITSTATUS (c * 256) = c := by unfold WEXITSTATUS; omega
  rw [h2]

/-- Witness for C1: a 2-stage pipeline whose last stage exits 5 reports
status 5. -/
theorem c1_witness : executeM envLast5 [[[97]], [[98]]] 0 = .reported 5 :=
  c1_reported_status_is_last_stage envLast5 [[[97]], [[98]]] 0 5 (by decide)
    (by decide) (fun _ _ => rfl) (fun _ => rfl) rfl rfl (by decide)

/-- C2 (code bug witness): main's read check (src/shell.c lines 73-78)
returns 1 from main both when fgets hits plain end-of-input (ferror clear,
no diagnostic) and when a read error occurred (diagnostic printed); the
claim and main's own doc comment say the clean end-of-input case exits
0. -/
theorem c2_main_returns_one_on_clean_eof :
    mainOnFgetsNull false = ([], 1) ∧
      mainOnFgetsNull true = ([Diag.stdinReadErr], 1) :=
  ⟨rfl, rfl⟩

/-- Counterexample to C3: a single-stage pipeline allocates one channel,
not zero; `execute` (line 107) passes `currProcesses->size`, not size-1,
to `makePipes`. -/
theorem c3_counterexample :
    makePipesM okEnv ([[[97]]] : Pipeline).length = .ok [0] ∧
      ([0] : List Nat).length = 1 ∧ (1 : Nat) ≠ ([[[97]]] : Pipeline).length - 1 :=
  ⟨rfl, rfl, by decide⟩

/-- C3 amended: the executor allocates exactly N channels for an N-stage
pipeline (channel i for i < N-1 carries stage i's output to stage i+1,
which reads channel ind-1 and writes channel ind; channel N-1 is allocated
but never wired); a single-stage pipeline allocates one channel. -/
theorem c3_amended (env : ExecEnv) (prcs : Pipeline) (ind : Nat)
    (hp : ∀ i < prcs.length, env.pipeFails i = false)
    (hclose : ∀ i b, env.childCloseFails ind i b = false)
    (hdup : ∀ b, env.dupFails ind b = false)
    (hexec : env.execOk ind = true) :
    makePipesM env prcs.length = .ok (List.range prcs.length) ∧
      (List.range prcs.length).length = prcs.length ∧
      runChildM env prcs ind =
        .execed (progOf prcs ind) (stageOf prcs ind)
          (if ind ≠ 0 then some (ind - 1) else none)
          (if (ind : Int) ≠ (prcs.length : Int) - 1 then some ind else none) :=
  ⟨makePipesM_ok env _ hp, List.length_range _,
    runChildM_execed env prcs ind hclose hdup hexec⟩

/-- Witness for C3 amended: a 2-stage pipeline allocates channels 0 and 1,
and stage 1 reads channel 0 and writes nowhere. -/
theorem c3_witness :
    makePipesM okEnv ([[[97]], [[98]]] : Pipeline).length =
        .ok (List.range ([[[97]], [[98]]] : Pipeline).length) ∧
      (List.range ([[[97]], [[98]]] : Pipeline).length).length =
        ([[[97]], [[98]]] : Pipeline).length ∧
      runChildM okEnv [[[97]], [[98]]] 1 =
        .execed (progOf [[[97]], [[98]]] 1) (stageOf [[[97]], [[98]]] 1)
          (if (1 : Nat) ≠ 0 then some 0 else none)
          (if ((1 : Nat) : Int) ≠ ((([[[97]], [[98]]] : Pipeline).length : Nat) : Int) - 1
            then some 1 else none) :=
  c3_amended okEnv [[[97]], [[98]]] 1 (by decide) (fun _ _ => rfl)
    (fun _ => rfl) rfl

/-- Counterexample to C4: on the line a, pipe, pipe, b the tokenizer does
not include an empty stage (nor the later stage b) in the pipeline: the
result is the single stage a. -/
theorem c4_counterexample :
    makeProcesses inputDoublePipe = some [[[97]]] ∧
      ([] : Stage) ∉ ([[[97]]] : Pipeline) := by
  constructor
  · decide
  · decide

/-- C4 amended: consecutive pipe symbols, or a line beginning or ending
with a pipe symbol, yield a stage with zero arguments at that position,
and the stage-collection loop of makeProcesses stops at that first empty
stage: the empty stage and every stage after it are discarded rather than
handed to the executor (a line beginning with a pipe yields an empty
pipeline); the line is not rejected. -/
theorem c4_amended :
    makeProcesses inputDoublePipe = some [[[97]]] ∧
      makeProcesses inputLeadingPipe = some [] ∧
      makeProcesses inputTrailingPipe = some [[[97]], [[98]]] := by
  refine ⟨by decide, by decide, by decide⟩

/-- Counterexample to C5: in a 2-stage pipeline, child 0 still has the
read end of channel 1 open when it execs (both ends of the extra channel
N-1 are untouched by closeUnneededPipes, whose loop stops at size-2),
although the claim allows only the write end of channel 0 to stay open. -/
theorem c5_counterexample :
    (1, false) ∈ childOpenEnds 2 0 ∧ (1, false) ∉ specNeededEnds 2 0 := by
  constructor
  · decide
  · decide

/-- C5 amended: when the child for stage ind execs, the open channel ends
are exactly the ends the spec names (read end of channel ind-1 when
ind > 0, write end of channel ind when ind < N-1) plus both ends of the
extra allocated channel N-1, which no child ever closes. -/
theorem c5_amended (size ind i : Nat) (b : Bool) (h : ind < size) :
    (i, b) ∈ childOpenEnds size ind ↔
      ((i, b) ∈ specNeededEnds size ind ∨ i = size - 1) := by
  rw [mem_childOpenEnds, mem_closedEndsOfChild, mem_specNeededEnds]
  cases b <;> simp <;> omega

/-- Witness for C5 amended: in a 3-stage pipeline, the read end of channel
2 is open in child 1 exactly because it is the extra channel. -/
theorem c5_witness :
    (2, false) ∈ childOpenEnds 3 1 ↔
      ((2, false) ∈ specNeededEnds 3 1 ∨ 2 = 3 - 1) :=
  c5_amended 3 1 2 false (by decide)

/-- C6: a stage whose program cannot be resolved is confined to that
child: the child prints the command-not-found diagnostic naming the
program and exits 127 (runChild returns -1 and the child branch of
execute calls exit(127)), while the parent still runs its wait loop to
completion and reports a status. -/
theorem c6_exec_failure_confined (env : ExecEnv) (prcs : Pipeline)
    (status0 ind : Nat) (hind : ind < prcs.length)
    (hclose : ∀ i b, env.childCloseFails ind i b = false)
    (hdup : ∀ b, env.dupFails ind b = false)
    (hexec : env.execOk ind = false)
    (hpar : NoParentFailures env prcs.length) :
    runChildM env prcs ind = .exited 127 (.cmdNotFound (progOf prcs ind)) ∧
      ∃ s, executeM env prcs status0 = .reported s := by
  constructor
  · unfold runChildM
    rw [closeUnneededPipesM_ok env ind _
      (fun i _ => ⟨hclose i false, hclose i true⟩)]
    simp [hdup, hexec]
  · have hne : prcs ≠ [] := List.length_pos.mp (by omega)
    exact ⟨_, executeM_reported env prcs status0 hne hpar⟩

/-- Witness for C6: in the 3-stage pipeline a, b, c where only stage 1
fails to resolve, child 1 exits 127 with the diagnostic naming b and the
shell still reports a status. -/
theorem c6_witness :
    runChildM envExecFail1 [[[97]], [[98]], [[99]]] 1 =
        .exited 127 (.cmdNotFound (progOf [[[97]], [[98]], [[99]]] 1)) ∧
      ∃ s, executeM envExecFail1 [[[97]], [[98]], [[99]]] 0 = .reported s :=
  c6_exec_failure_confined envExecFail1 [[[97]], [[98]], [[99]]] 0 1
    (by decide) (fun _ _ => rfl) (fun _ => rfl) rfl (by decide)

/-- Counterexample to C7: a close failure inside child 0 of a 2-stage
pipeline terminates only that child (exit 127); the shell itself is not
terminated: it reports status 0 from the surviving last stage. -/
theorem c7_counterexample :
    runChildM envChildCloseFail [[[97]], [[98]]] 0 = .exited 127 .closeErr ∧
      executeM envChildCloseFail [[[97]], [[98]]] 0 = .reported 0 := by
  constructor
  · decide
  · decide

/-- C7 amended: pipe-creation, fork and parent-side close/wait failures
abort the entire shell with a diagnostic and exit status 1; but descriptor
duplication and close failures that occur inside a child terminate only
that child, with status 127 and a diagnostic (every child either execs or
exits 127), and with the parent-side calls all succeeding the shell
survives to report a status whatever happens inside the children. -/
theorem c7_amended (env : ExecEnv) (prcs : Pipeline) (status0 : Nat) :
    ((∃ j, j < prcs.length ∧ env.pipeFails j = true) →
      executeM env prcs status0 = .shellAbort .pipeErr 1) ∧
    ((∀ j < prcs.length, env.pipeFails j = false) →
      (∃ j, j < prcs.length ∧ env.forkFails j = true) →
      executeM env prcs status0 = .shellAbort .forkErr 1) ∧
    ((∀ j < prcs.length, env.pipeFails j = false) →
      (∀ j < prcs.length, env.forkFails j = false) →
      (∃ j, j < prcs.length ∧ (env.parentCloseFails j false = true ∨
        env.parentCloseFails j true = true ∨ env.waitFails j = true)) →
      ∃ d, executeM env prcs status0 = .shellAbort d 1 ∧
        (d = Diag.closeErr ∨ d = Diag.waitErr)) ∧
    (prcs ≠ [] → NoParentFailures env prcs.length →
      ∃ s, executeM env prcs status0 = .reported s) ∧
    (∀ ind, (∃ d, runChildM env prcs ind = .exited 127 d) ∨
      ∃ p a x y, runChildM env prcs ind = .execed p a x y) := by
  refine ⟨?_, ?_, ?_, ?_, ?_⟩
  · rintro ⟨j, hj, hjf⟩
    have h1 : makePipesM env prcs.length = .error .pipeErr := by
      unfold makePipesM
      rw [makePipesLoopM_err env _ ⟨j, List.mem_range.mpr hj, hjf⟩]
    unfold executeM
    rw [h1]
  · rintro hp ⟨j, hj, hjf⟩
    unfold executeM
    rw [makePipesM_ok env _ hp,
      forkLoopM_err env _ ⟨j, List.mem_range.mpr hj, hjf⟩]
  · rintro hp hf ⟨j, hj, hjf⟩
    unfold executeM
    rw [makePipesM_ok env _ hp,
      forkLoopM_ok env _ (fun i hi => hf i (List.mem_range.mp hi))]
    unfold waitOnProcessesM
    obtain ⟨d, herr, hd⟩ :=
      waitLoopM_err env prcs (List.range prcs.length) status0
        ⟨j, List.mem_range.mpr hj, hjf⟩
    rw [herr]
    exact ⟨d, rfl, hd⟩
  · intro hne hpar
    exact ⟨_, executeM_reported env prcs status0 hne hpar⟩
  · intro ind
    unfold runChildM
    cases hc : closeUnneededPipesM env ind (List.range (prcs.length - 1)) with
    | error d => exact Or.inl ⟨d, rfl⟩
    | ok u =>
      cases u
      by_cases h1 : ind ≠ 0 ∧ env.dupFails ind false = true
      · rw [if_pos h1]
        exact Or.inl ⟨.dupErr, rfl⟩
      · rw [if_neg h1]
        by_cases h2 : (ind : Int) ≠ (prcs.length : Int) - 1 ∧
          env.dupFails ind true = true
        · rw [if_pos h2]
          exact Or.inl ⟨.dupErr, rfl⟩
        · rw [if_neg h2]
          by_cases h3 : env.execOk ind = true
          · rw [if_pos h3]
            exact Or.inr ⟨_, _, _, _, rfl⟩
          · rw [if_neg h3]
            exact Or.inl ⟨.cmdNotFound (progOf prcs ind), rfl⟩

/-- Witness for C7 amended: each part instantiated at a concrete 2-stage
pipeline and failure pattern. -/
theorem c7_witness :
    executeM envPipeFail [[[97]], [[98]]] 0 = .shellAbort .pipeErr 1 ∧
      executeM envForkFail [[[97]], [[98]]] 0 = .shellAbort .forkErr 1 ∧
      (∃ d, executeM envWaitFail [[[97]], [[98]]] 0 = .shellAbort d 1 ∧
        (d = Diag.closeErr ∨ d = Diag.waitErr)) ∧
      (∃ s, executeM okEnv [[[97]], [[98]]] 0 = .reported s) ∧
      ((∃ d, runChildM envChildCloseFail [[[97]], [[98]]] 0 = .exited 127 d) ∨
        ∃ p a x y, runChildM envChildCloseFail [[[97]], [[98]]] 0 = .execed p a x y) :=
  ⟨(c7_amended envPipeFail [[[97]], [[98]]] 0).1 ⟨0, by decide, rfl⟩,
    (c7_amended envForkFail [[[97]], [[98]]] 0).2.1 (fun j _ => rfl)
      ⟨0, by decide, rfl⟩,
    (c7_amended envWaitFail [[[97]], [[98]]] 0).2.2.1 (fun j _ => rfl)
      (fun j _ => rfl) ⟨0, by decide, Or.inr (Or.inr rfl)⟩,
    (c7_amended okEnv [[[97]], [[98]]] 0).2.2.2.1 (by decide) (by decide),
    (c7_amended envChildCloseFail [[[97]], [[98]]] 0).2.2.2.2 0⟩

set_option maxRecDepth 20000 in
/-- Counterexample to C8: the line holding one 150-character word is not
rejected and not discarded: the tokenizer hands the executor a pipeline
whose single argument has 150 characters, even though writing it (plus its
NUL terminator) overflows the MAX_WORD_LENGTH = 100 byte allocation of
makeArgument; no diagnostic exists anywhere in the parsing path. -/
theorem c8_counterexample :
    makeProcesses inputLongWord = some [[List.replicate 150 97]] ∧
      MAX_WORD_LENGTH < (List.replicate 150 (97 : Int)).length + 1 := by
  constructor
  · decide
  · decide

set_option maxRecDepth 80000 in
/-- C8 amended: the code enforces no ceiling: an argument longer than
MAX_WORD_LENGTH is copied in full (overflowing its fixed allocation, with
no diagnostic and no truncation), and a stage with more than MAX_WORDS
arguments is collected in full (overflowing the fixed argument array); the
line is tokenized normally and executed rather than rejected.  (The input
line length is the one ceiling that cannot overflow, because fgets itself
truncates the line silently.) -/
theorem c8_amended :
    (makeProcesses inputLongWord = some [[List.replicate 150 97]] ∧
      MAX_WORD_LENGTH < 150) ∧
    (makeProcesses inputManyWords = some [List.replicate 501 [97]] ∧
      MAX_WORDS < 501) := by
  exact ⟨⟨by decide, by decide⟩, ⟨by decide, by decide⟩⟩

/-- Counterexample to C9: a tab character (code 9) is not an argument
boundary: on the line a, tab, b the argument reader runs through the tab
and produces the single argument a-tab-b, where the claim says the tab
ends the argument after a. -/
theorem c9_counterexample :
    argBoundary inputTab 1 = false ∧ inputTab 1 = 9 ∧
      makeArgumentF (BUFFER_SIZE + 2) inputTab 0 = some ([97, 9, 98], 3) := by
  refine ⟨by decide, by decide, by decide⟩

/-- C9 amended: a buffer position ends the argument being read precisely
when it holds the space character (code 32, the only whitespace the code
recognizes - a tab does not end an argument), lies at or beyond the end of
the buffer, or holds a newline, the pipe symbol, or the EOF sentinel (the
char-valued comparison to EOF adds byte 0xFF, read as -1 through a signed
char, to the boundary set). -/
theorem c9_amended (input : Nat → Int) (ind : Nat) :
    argBoundary input ind = true ↔
      (input ind = 32 ∨ BUFFER_SIZE ≤ ind ∨ input ind = 10 ∨
        input ind = 124 ∨ input ind = -1) := by
  simp only [argBoundary, endOfArg, Bool.or_eq_true, decide_eq_true_eq]
  tauto

/-- C10: every pipeline the tokenizer actually hands over consists only of
stages with at least one argument: the stage-collection loop stops at the
first zero-argument stage, so args[0][0], the program name main compares
against "exit" and runChild passes to execvp, always exists. -/
theorem c10_no_empty_stage (input : Nat → Int) (p : Pipeline)
    (h : makeProcesses input = some p) : ∀ s ∈ p, s ≠ [] :=
  makeProcessesLoopF_no_empty (BUFFER_SIZE + 2) input 0 [] p
    (fun _ hs => absurd hs (List.not_mem_nil _)) h

/-- Witness for C10: the pipeline tokenized from the line a, pipe, b has
only nonempty stages. -/
theorem c10_witness : ([97] : Arg) :: [] ≠ ([] : Stage) :=
  c10_no_empty_stage inputSimplePipe [[[97]], [[98]]] (by decide) [[97]]
    (by decide)
